import Mathlib

/-!
Verification of the BlitzMem slab allocator (Go sources) against its
natural-language specification.  Each Go function the claims touch is
shallowly embedded as an executable Lean definition that follows the
source line by line; machine integers are modelled as `Int`/`Nat`,
`float64` as `ℚ`, `unsafe.Pointer` as `Option Ptr` (with `none` = nil),
and Go panics (out-of-range indexing) as `Option`-valued results.
Definitions come first, theorems follow.
-/

namespace BlitzMem

/-- Pointers are abstract tokens; `none` models Go's nil `unsafe.Pointer`. -/
abbrev Ptr := Nat

/-! ## Size-class taxonomy (src/type.go, root package `slab`) -/

/-- `numSizeClasses` from src/type.go: `const numSizeClasses = 19`. -/
def numSizeClasses : Nat := 19

/-- `SizeClass` is a `uint8` enumeration; we use its numeric value. -/
abbrev SizeClass := Nat

/-- `SizeClassMax = 19`, the sentinel after `SizeClass2MB = 18` in src/type.go. -/
def SizeClassMax : SizeClass := 19

/-- `sizeClassSizes` from src/type.go: the byte size of each enumerated
class, `SizeClass8B ↦ 8` … `SizeClass2MB ↦ 2 MB`; 19 entries. -/
def sizeClassSizes : List Int :=
  [8, 16, 32, 64, 128, 256, 512,
   1024, 1024 * 2, 1024 * 4, 1024 * 8, 1024 * 16, 1024 * 32, 1024 * 64,
   1024 * 128, 1024 * 256, 1024 * 512, 1024 * 1024, 1024 * 1024 * 2]

/-- The `for sc := SizeClass8B; sc < SizeClassMax; sc++` loop of
`getClassSize` (src/slab.go): return the first class index `sc`
with `size <= sizeClassSizes[sc]`, else fall out to `SizeClassMax`.
`fuel` only bounds the recursion: the loop runs at most
`numSizeClasses` times, so `getClassSize` passes that much fuel. -/
def classLoop (size : Int) : Nat → Nat → SizeClass
  | 0, _ => SizeClassMax
  | fuel + 1, sc =>
    if sc < numSizeClasses then
      if size ≤ sizeClassSizes.getD sc 0 then sc else classLoop size fuel (sc + 1)
    else SizeClassMax

/-- `getClassSize` from src/slab.go: sizes below 8 map to class 0,
otherwise scan the table for the first class that fits. -/
def getClassSize (size : Int) : SizeClass :=
  if size < 8 then 0 else classLoop size numSizeClasses 0

/-! ## Top-level `alloc` and the typed allocation helpers (src/slab.go) -/

/-- `alloc` from src/slab.go.  The source body is the single statement
`return nil`. -/
def alloc (_size : Int) : Option Ptr := none

/-- A Go slice as produced by `unsafe.Slice(ptr, n)`: base pointer and
element count. -/
structure GoSlice where
  data : Ptr
  length : Int
  deriving DecidableEq

/-- `AllocBytes` from src/slab.go, parameterized by the allocator the
helper calls (the source calls the package-level `alloc`; the parameter
lets a theorem observe the size the helper requests):
`ptr := alloc(size); if nil → nil; return unsafe.Slice(ptr, size)`. -/
def AllocBytesWith (allocFn : Int → Option Ptr) (size : Int) : Option GoSlice :=
  match allocFn size with
  | none => none
  | some ptr => some ⟨ptr, size⟩

/-- `AllocInt32s` from src/slab.go: `ptr := alloc(count)`; on success
`size := count * sizeof(int32)`; `return unsafe.Slice(ptr, size)`. -/
def AllocInt32sWith (allocFn : Int → Option Ptr) (count : Int) : Option GoSlice :=
  match allocFn count with
  | none => none
  | some ptr => some ⟨ptr, count * 4⟩

/-- `AllocInt64s` from src/slab.go: `ptr := alloc(count)`; on success
`size := count * sizeof(int64)`; `return unsafe.Slice(ptr, size)`. -/
def AllocInt64sWith (allocFn : Int → Option Ptr) (count : Int) : Option GoSlice :=
  match allocFn count with
  | none => none
  | some ptr => some ⟨ptr, count * 8⟩

/-- `AllocUint32s` from src/slab.go (same shape, element size 4). -/
def AllocUint32sWith (allocFn : Int → Option Ptr) (count : Int) : Option GoSlice :=
  match allocFn count with
  | none => none
  | some ptr => some ⟨ptr, count * 4⟩

/-- `AllocUint64s` from src/slab.go (same shape, element size 8). -/
def AllocUint64sWith (allocFn : Int → Option Ptr) (count : Int) : Option GoSlice :=
  match allocFn count with
  | none => none
  | some ptr => some ⟨ptr, count * 8⟩

/-- `AllocFloat32s` from src/slab.go (same shape, element size 4). -/
def AllocFloat32sWith (allocFn : Int → Option Ptr) (count : Int) : Option GoSlice :=
  match allocFn count with
  | none => none
  | some ptr => some ⟨ptr, count * 4⟩

/-- `AllocFloat64s` from src/slab.go (same shape, element size 8). -/
def AllocFloat64sWith (allocFn : Int → Option Ptr) (count : Int) : Option GoSlice :=
  match allocFn count with
  | none => none
  | some ptr => some ⟨ptr, count * 8⟩

/-- `AllocInt64s` as the source composes it, with the package `alloc`. -/
def AllocInt64s (count : Int) : Option GoSlice := AllocInt64sWith alloc count

/-- `AllocFloat32s` as the source composes it, with the package `alloc`. -/
def AllocFloat32s (count : Int) : Option GoSlice := AllocFloat32sWith alloc count

/-! ## L1 cache (src/cache.go) -/

/-- `L1Sizes = 128` from src/cache.go. -/
def L1Sizes : Nat := 128

/-- `L1Cache` from src/cache.go: `slots [numSizeClasses][L1Sizes]`
pointer array and `counters [numSizeClasses]uint32` (padding elided). -/
structure L1Cache where
  slots : List (List (Option Ptr))
  counters : List Nat
  deriving DecidableEq

/-- A fresh `L1Cache` (Go zero value): all slots nil, all counters 0. -/
def l1Init : L1Cache :=
  ⟨List.replicate numSizeClasses (List.replicate L1Sizes none),
   List.replicate numSizeClasses 0⟩

/-- `L1Cache.tryPut` from src/cache.go, single-threaded (the CAS on the
counter always succeeds).  The source computes `idx :=
sizeClassSizes[sc]` — the counter array is indexed by the CLASS BYTE
SIZE, not the class index — and an out-of-range `counters[idx]` (a Go
panic) is modelled as `none`.  On success only the counter moves; the
source never writes `ptr` into `slots`. -/
def L1Cache.tryPut (l : L1Cache) (sc : SizeClass) (_ptr : Ptr) :
    Option (Bool × L1Cache) :=
  let idx := (sizeClassSizes.getD sc 0).toNat
  match l.counters.get? idx with
  | none => none
  | some c =>
    if c ≥ L1Sizes then some (false, l)
    else some (true, { l with counters := l.counters.set idx (c + 1) })

/-- `L1Cache.tryAlloc` from src/cache.go, single-threaded.  Same
`idx := sizeClassSizes[sc]` indexing; after the zero check the body is
`return nil` (the pointer-emitting path is absent in the source). -/
def L1Cache.tryAlloc (l : L1Cache) (sc : SizeClass) :
    Option (Option Ptr × L1Cache) :=
  let idx := (sizeClassSizes.getD sc 0).toNat
  match l.counters.get? idx with
  | none => none
  | some c =>
    if c = 0 then some (none, l)
    else some (none, l)

/-! ## L2 cache (src/cache.go) -/

/-- `cacheEntry` from src/cache.go. -/
structure CacheEntry where
  ptr : Option Ptr
  sizeClass : SizeClass
  deriving DecidableEq

/-- The Go zero value `cacheEntry{}`: nil pointer, class 0. -/
def emptyEntry : CacheEntry := ⟨none, 0⟩

/-- `L2Cache` from src/cache.go: 1024 entries plus a fill count
(`size`); mutex and padding elided. -/
structure L2Cache where
  slots : List CacheEntry
  size : Int
  deriving DecidableEq

/-- `L2Cache.tryPut` from src/cache.go: store at `slots[size]` and
increment `size` when below capacity. -/
def L2Cache.tryPut (l : L2Cache) (sc : SizeClass) (ptr : Ptr) : Bool × L2Cache :=
  if l.size ≥ (l.slots.length : Int) then (false, l)
  else (true, ⟨l.slots.set l.size.toNat ⟨some ptr, sc⟩, l.size + 1⟩)

/-- The descending scan of `L2Cache.tryAlloc` (src/cache.go):
`for i := l.size - 1; i >= 0; i--`; the argument carries `i + 1`, so `0`
means the loop fell through.  On the first entry whose class size covers
the request the source executes `l.size--; l.slots[i] = cacheEntry{};
return l.slots[i].ptr` — i.e. it zeroes the slot and only then reads the
pointer back out of the just-zeroed entry. -/
def L2Cache.allocScan (l : L2Cache) (size : Int) : Nat → Option Ptr × L2Cache
  | 0 => (none, l)
  | i + 1 =>
    let e := l.slots.getD i emptyEntry
    if sizeClassSizes.getD e.sizeClass 0 ≥ size then
      let slots' := l.slots.set i emptyEntry
      ((slots'.getD i emptyEntry).ptr, ⟨slots', l.size - 1⟩)
    else l.allocScan size i

/-- `L2Cache.tryAlloc` from src/cache.go. -/
def L2Cache.tryAlloc (l : L2Cache) (size : Int) : Option Ptr × L2Cache :=
  if l.size ≤ 0 then (none, l)
  else l.allocScan size l.size.toNat

/-- An L2 cache holding exactly one entry: pointer 42 of class 8 B. -/
def l2One : L2Cache := ⟨⟨some 42, 0⟩ :: List.replicate 1023 emptyEntry, 1⟩

/-! ## OSS dead-letter queue (src/weight/dlq_oss.go) -/

/-- `minCapacity = 32` from src/weight/dlq_oss.go. -/
def minCapacity : Int := 32

/-- `maxCapacity = 1 << 20` from src/weight/dlq_oss.go. -/
def maxCapacity : Int := 1048576

/-- `growFactor = 2` from src/weight/dlq_oss.go. -/
def growFactor : Int := 2

/-- The error values of src/weight/dlq_oss.go. -/
inductive BufErr where
  | queueClosed
  | bufFull
  | bufClosed
  deriving DecidableEq

/-- `RingBuffer` from src/weight/dlq_oss.go (int32 fields as `Int`,
event pointers as `Option Ptr`). -/
structure RingBuffer where
  head : Int
  tail : Int
  capacity : Int
  count : Int
  buf : List (Option Ptr)
  state : Bool
  deriving DecidableEq

/-- `newRingBuffer` from src/weight/dlq_oss.go. -/
def newRingBuffer (capacity : Int) : RingBuffer :=
  ⟨0, 0, capacity, 0, List.replicate capacity.toNat none, true⟩

/-- `RingBuffer.push` from src/weight/dlq_oss.go, single-threaded (the
CAS on `count` succeeds first try): full when `count >= capacity`,
otherwise reserve, `pos := (tail.Add(1) - 1) % capacity`, store. -/
def RingBuffer.push (r : RingBuffer) (event : Ptr) : Except BufErr (Int × RingBuffer) :=
  if !r.state then .error .bufClosed
  else if r.count ≥ r.capacity then .error .bufFull
  else
    let count' := r.count + 1
    let tail' := r.tail + 1
    let pos := (tail' - 1) % r.capacity
    .ok (pos, { r with count := count', tail := tail',
                       buf := r.buf.set pos.toNat (some event) })

/-- `DLQOss.expansion` from src/weight/dlq_oss.go (the body under the
resize mutex, single-threaded).  The source computes `newCapacity` and
fills a fresh `newQ`, but `newQ` is never installed into the ring and
`newCapacity` is never stored: the only observable effects are
`count := copySlots`, `head := 0`, `tail := copySlots - 1` on the OLD
buffer (`d.buf.Store` republishes the same `RingBuffer` pointer). -/
def DLQOss.expansion (r : RingBuffer) : RingBuffer :=
  let count := r.count
  let capacity := r.capacity
  if count < capacity then r
  else
    let copySlots := r.count
    let newCapacity := min maxCapacity (copySlots * growFactor)
    let _newQ : List (Option Ptr) := List.replicate newCapacity.toNat none
    { r with count := copySlots, head := 0, tail := copySlots - 1 }

/-- The retry loop of `DLQOss.Push` (src/weight/dlq_oss.go) with the
close channel and context never fired: on `ErrBufFull` run `expansion`
and retry; `fuel` bounds the loop, `none` means it was still spinning
when the fuel ran out. -/
def DLQOss.pushLoop : Nat → RingBuffer → Ptr → Option (Except BufErr (Int × RingBuffer))
  | 0, _, _ => none
  | fuel + 1, r, event =>
    match r.push event with
    | .ok res => some (.ok res)
    | .error .bufFull => DLQOss.pushLoop fuel (DLQOss.expansion r) event
    | .error e => some (.error e)

/-- A capacity-32 ring filled by 32 pushes from `newDLQOss(32)`. -/
def rbFull : RingBuffer :=
  (List.range 32).foldl
    (fun r i =>
      match r.push i with
      | .ok (_, r') => r'
      | .error _ => r)
    (newRingBuffer 32)

/-- The state `expansion` leaves behind on the full capacity-32 ring. -/
def rbStuck : RingBuffer := DLQOss.expansion rbFull

/-! ## Core-count derivation (src/utils/utils.go); float64 as ℚ -/

/-- Go's `int(x)` float→int conversion: truncation toward zero. -/
def goInt (x : ℚ) : Int := if 0 ≤ x then ⌊x⌋ else ⌈x⌉

/-- `CalculateCores` from src/utils/utils.go.  Go mutates
`effectiveScale`, `smScale`, `mmScale` in the `< 0.01` branch; the three
primed lets mirror that joint update. -/
def CalculateCores (cores : Int) (smScale mmScale : ℚ) : Int × Int :=
  let effectiveScale := smScale + mmScale
  let effectiveScale' := if effectiveScale < 1/100 then 1 else effectiveScale
  let smScale' := if effectiveScale < 1/100 then 1/2 else smScale
  let mmScale' := if effectiveScale < 1/100 then 1/2 else mmScale
  let normalizedSmScale := smScale' / effectiveScale'
  let normalizedMmScale := mmScale' / effectiveScale'
  let effectiveCores := goInt ((cores : ℚ) * effectiveScale' + 1/2)
  let effectiveCores' := if effectiveCores < 2 then min 2 cores else effectiveCores
  let filling : ℚ := 1/2
  (goInt ((effectiveCores' : ℚ) * normalizedSmScale + filling),
   goInt ((effectiveCores' : ℚ) * normalizedMmScale + filling))

/-- The derivation exactly as the claim words it: `effective =
round(C × (w_s + w_m))` with a minimum of 2, `small = round(effective ×
w_s / (w_s + w_m))`, `medium = effective − small`, and the `0.5 / 0.5`
substitution when `w_s + w_m < 0.01`.  `round` is half-up rounding
`⌊x + 1/2⌋`, matching `int(x + 0.5)` on non-negative values. -/
def calculateCoresClaim (cores : Int) (smScale mmScale : ℚ) : Int × Int :=
  let ws := if smScale + mmScale < 1/100 then 1/2 else smScale
  let wm := if smScale + mmScale < 1/100 then 1/2 else mmScale
  let effective := max 2 ⌊(cores : ℚ) * (ws + wm) + 1/2⌋
  let small := ⌊(effective : ℚ) * ws / (ws + wm) + 1/2⌋
  (small, effective - small)

/-- The derivation the source actually implements (the amended claim):
like `calculateCoresClaim` but the floor on `effective` is
`min 2 cores` rather than 2, and BOTH outputs are rounded
independently from the normalized weights. -/
def calculateCoresAmended (cores : Int) (smScale mmScale : ℚ) : Int × Int :=
  let s := if smScale + mmScale < 1/100 then 1 else smScale + mmScale
  let ws := if smScale + mmScale < 1/100 then 1/2 else smScale
  let wm := if smScale + mmScale < 1/100 then 1/2 else mmScale
  let eff0 := ⌊(cores : ℚ) * s + 1/2⌋
  let eff := if eff0 < 2 then min 2 cores else eff0
  (⌊(eff : ℚ) * (ws / s) + 1/2⌋, ⌊(eff : ℚ) * (wm / s) + 1/2⌋)

/-! ## Event hub (src/weight/event_hub.go) -/

/-- `common.SizeCategory` is a `uint8` enumeration; numeric value. -/
abbrev SizeCategory := Nat

/-- `AllSizeCategory = 3` from src/common/type.go. -/
def AllSizeCategory : SizeCategory := 3

/-- A `Listener` of src/weight/event_hub.go; the channel is irrelevant
to tag multiplicity and elided. -/
structure Listener where
  tag : String
  category : SizeCategory
  deriving DecidableEq

/-- `EventHubImpl.Register` from src/weight/event_hub.go: appends the
new listener unconditionally — there is no duplicate-tag check. -/
def registerL (ls : List Listener) (tag : String) (sc : SizeCategory) : List Listener :=
  ls ++ [⟨tag, sc⟩]

/-- `EventHubImpl.Unregister` from src/weight/event_hub.go: removes the
FIRST listener whose tag matches (`break` after the hit). -/
def unregisterL : List Listener → String → List Listener
  | [], _ => []
  | l :: rest, tag => if l.tag == tag then rest else l :: unregisterL rest tag

/-- A register/unregister call against the hub. -/
inductive HubOp where
  | register (tag : String) (sc : SizeCategory)
  | unregister (tag : String)

/-- Apply one hub operation to the listener list. -/
def applyOp (ls : List Listener) : HubOp → List Listener
  | .register tag sc => registerL ls tag sc
  | .unregister tag => unregisterL ls tag

/-- Apply a sequence of hub operations, oldest first. -/
def applyOps : List HubOp → List Listener → List Listener
  | [], ls => ls
  | op :: rest, ls => applyOps rest (applyOp ls op)

/-- How many registered listeners carry `tag`. -/
def tagCount (ls : List Listener) (tag : String) : Nat :=
  (ls.map Listener.tag).count tag

/-- An operation sequence is fresh when every `register` happens while
its tag is absent from the hub (the uniqueness discipline the spec
assumes; `Register` in the source does not enforce it). -/
def freshOps : List HubOp → List Listener → Bool
  | [], _ => true
  | .register tag sc :: rest, ls =>
    !(ls.any fun l => l.tag == tag) && freshOps rest (registerL ls tag sc)
  | .unregister tag :: rest, ls => freshOps rest (unregisterL ls tag)

/-! # Theorems -/

/-! ## Loop characterization for `classLoop` -/

theorem classLoop_spec (size : Int) :
    ∀ fuel sc, numSizeClasses ≤ sc + fuel →
      (classLoop size fuel sc = SizeClassMax ∧
        ∀ j, sc ≤ j → j < numSizeClasses → sizeClassSizes.getD j 0 < size) ∨
      (sc ≤ classLoop size fuel sc ∧ classLoop size fuel sc < numSizeClasses ∧
        size ≤ sizeClassSizes.getD (classLoop size fuel sc) 0 ∧
        ∀ j, sc ≤ j → j < classLoop size fuel sc → sizeClassSizes.getD j 0 < size) := by
  intro fuel
  induction fuel with
  | zero =>
    intro sc hsc
    exact Or.inl ⟨rfl, fun j hj hj' => absurd hj' (by omega)⟩
  | succ fuel ih =>
    intro sc hsc
    rw [classLoop]
    by_cases h19 : sc < numSizeClasses
    · rw [if_pos h19]
      by_cases hfit : size ≤ sizeClassSizes.getD sc 0
      · rw [if_pos hfit]
        exact Or.inr ⟨le_refl _, h19, hfit, fun j hj hj' => absurd hj' (by omega)⟩
      · rw [if_neg hfit]
        rcases ih (sc + 1) (by omega) with ⟨hmax, hall⟩ | ⟨hle, hlt, hfit', hall⟩
        · refine Or.inl ⟨hmax, fun j hj hj' => ?_⟩
          rcases Nat.eq_or_lt_of_le hj with h | h
          · subst h; omega
          · exact hall j h hj'
        · refine Or.inr ⟨by omega, hlt, hfit', fun j hj hj' => ?_⟩
          rcases Nat.eq_or_lt_of_le hj with h | h
          · subst h; omega
          · exact hall j h hj'
    · rw [if_neg h19]
      exact Or.inl ⟨rfl, fun j hj hj' => absurd hj' (by omega)⟩

/-- Every table entry is at most 2 MB. -/
theorem sizeClassSizes_le_2MB :
    ∀ j, j < numSizeClasses → sizeClassSizes.getD j 0 ≤ 1024 * 1024 * 2 := by
  decide

/-- Every table entry is at least 8. -/
theorem sizeClassSizes_pos : ∀ j, j < numSizeClasses → 8 ≤ sizeClassSizes.getD j 0 := by
  decide

/-- C3, counterexample: the claim's taxonomy of "23 classes with byte
sizes from 8 B to 32 MB" does not match the source: `sizeClassSizes` has
19 entries topping out at 2 MB, and already a 4 MB request — well below
the claimed largest class of 32 MB — falls off the table and yields the
`SizeClassMax` sentinel instead of an enumerated ≥ 4 MB class. -/
theorem getClassSize_claim_counterexample :
    sizeClassSizes.length = 19 ∧ ¬ sizeClassSizes.length = 23 ∧
    sizeClassSizes.getD 18 0 = 1024 * 1024 * 2 ∧
    (1024 * 1024 * 4 : Int) ≤ 1024 * 1024 * 32 ∧
    getClassSize (1024 * 1024 * 4) = SizeClassMax := by
  refine ⟨rfl, by decide, rfl, by decide, ?_⟩
  decide

/-- C3 (amended): the taxonomy has 19 classes with byte sizes from 8 B
to 2 MB; for every positive request at most 2 MB, `getClassSize` returns
an enumerated class whose size is ≥ the request while every smaller
class is strictly below the request (i.e. the smallest fitting class);
for requests larger than 2 MB it returns `SizeClassMax`. -/
theorem getClassSize_smallest (size : Int) (hpos : 0 < size) :
    (size ≤ 1024 * 1024 * 2 →
      size ≤ sizeClassSizes.getD (getClassSize size) 0 ∧
      getClassSize size < numSizeClasses ∧
      ∀ sc, sc < getClassSize size → sizeClassSizes.getD sc 0 < size) ∧
    (1024 * 1024 * 2 < size → getClassSize size = SizeClassMax) := by
  unfold getClassSize
  by_cases hsmall : size < 8
  · rw [if_pos hsmall]
    constructor
    · intro _
      refine ⟨show size ≤ 8 by omega, by decide, fun sc hsc => (Nat.not_lt_zero sc hsc).elim⟩
    · intro hbig; omega
  · rw [if_neg hsmall]
    rcases classLoop_spec size numSizeClasses 0 (by omega) with
      ⟨hmax, hall⟩ | ⟨_, hlt, hfit, hall⟩
    · constructor
      · intro hle
        have := hall 18 (by omega) (by decide)
        rw [show sizeClassSizes.getD 18 0 = 1024 * 1024 * 2 from rfl] at this
        omega
      · intro _; exact hmax
    · constructor
      · intro _
        exact ⟨hfit, hlt, fun sc hsc => hall sc (Nat.zero_le sc) hsc⟩
      · intro hbig
        have := sizeClassSizes_le_2MB _ hlt
        omega

/-- Witness for `getClassSize_smallest` at the concrete request 100. -/
theorem getClassSize_smallest_witness :
    (0 : Int) < 100 ∧
    (((100 : Int) ≤ 1024 * 1024 * 2 →
      (100 : Int) ≤ sizeClassSizes.getD (getClassSize 100) 0 ∧
      getClassSize 100 < numSizeClasses ∧
      ∀ sc, sc < getClassSize 100 → sizeClassSizes.getD sc 0 < 100) ∧
    ((1024 * 1024 * 2 : Int) < 100 → getClassSize 100 = SizeClassMax)) :=
  ⟨by decide, getClassSize_smallest 100 (by decide)⟩

/-- C1: `alloc` in the source is the stub `return nil`: even for the
in-range request of 8 bytes (0 < 8 ≤ the largest class size) it returns
the absent sentinel instead of a pointer to a writable region, so no
allocation in `(0, SizeClassMax]` ever yields a usable region. -/
theorem alloc_always_nil :
    alloc 8 = none ∧ (0 : Int) < 8 ∧ (8 : Int) ≤ 1024 * 1024 * 2 :=
  ⟨rfl, by decide, by decide⟩

/-- C2: running the body of `AllocInt64s` (and `AllocFloat32s`) against
an allocator that records the requested size as the returned pointer: at
`count = 1` the helper passes `count` — not `count * sizeof(T)` — to
`alloc` (the recorded pointer is 1, not 8 resp. 4), and the slice it
builds has length `count * sizeof(T)` (8 resp. 4), not `count`. -/
theorem typedAlloc_requests_count_not_bytes :
    AllocInt64sWith (fun n => some n.toNat) 1 = some ⟨1, 8⟩ ∧
    AllocFloat32sWith (fun n => some n.toNat) 1 = some ⟨1, 4⟩ ∧
    (1 : Int) ≠ 1 * 8 ∧ ((8 : Int) ≠ 1 ∧ (4 : Int) ≠ 1) ∧
    AllocInt64s 1 = none :=
  ⟨rfl, rfl, by decide, ⟨by decide, by decide⟩, rfl⟩

/-- C10: for the valid size class `SizeClass32B` (= 2 < SizeClassMax),
`L1Cache.tryPut` computes the counter index `sizeClassSizes[sc] = 32`,
which is NOT below `numSizeClasses = 19`: the access
`l.counters[32]` is out of range (a Go panic, modelled as `none`), and
`tryAlloc` computes the same index. -/
theorem l1_counter_index_out_of_range :
    (2 : Nat) < SizeClassMax ∧
    (sizeClassSizes.getD 2 0).toNat = 32 ∧
    ¬ ((sizeClassSizes.getD 2 0).toNat < numSizeClasses) ∧
    l1Init.tryPut 2 42 = none ∧
    l1Init.tryAlloc 2 = none := by
  refine ⟨by decide, rfl, by decide, ?_, ?_⟩ <;> rfl

/-- C6: on a fresh L1 cache, `tryPut(SizeClass8B, 42)` reports success,
yet afterwards every slot of the cache is still nil — the source never
stores the pointer — and the counter that moved is `counters[8]` (the
byte size of class 8 B), not the counter of class 0; so a slot below a
positive counter does not hold the previously put block pointer. -/
theorem l1_tryPut_stores_nothing :
    (l1Init.tryPut 0 42).map Prod.fst = some true ∧
    (l1Init.tryPut 0 42).map (fun r => r.2.slots) = some l1Init.slots ∧
    (l1Init.tryPut 0 42).map (fun r => r.2.counters.getD 8 0) = some 1 ∧
    (l1Init.tryPut 0 42).map (fun r => r.2.counters.getD 0 0) = some 0 ∧
    l1Init.slots.all (fun row => row.all (fun s => s = none)) = true :=
  ⟨rfl, rfl, rfl, rfl, by decide⟩

/-- C7: the L2 cache `l2One` stores exactly one entry — pointer 42 of
class 8 B, whose class size 8 covers the request 8 — yet `tryAlloc 8`
returns nil: the source zeroes `slots[i]` and then reads the pointer
from the just-zeroed entry.  (The entry is nevertheless consumed:
`size` drops to 0.) -/
theorem l2_tryAlloc_returns_nil_on_hit :
    l2One.slots.getD 0 emptyEntry = ⟨some 42, 0⟩ ∧
    sizeClassSizes.getD 0 0 ≥ (8 : Int) ∧
    (l2One.tryAlloc 8).1 = none ∧
    (l2One.tryAlloc 8).2.size = 0 :=
  ⟨rfl, by decide, rfl, rfl⟩

set_option maxRecDepth 8192 in
/-- Once `expansion` has run on the full capacity-32 ring, the state is
a fixed point: every further `Push` retry sees a full buffer, runs
`expansion` again without effect, and loops. -/
theorem dlq_pushLoop_stuck : ∀ fuel, DLQOss.pushLoop fuel rbStuck 99 = none := by
  intro fuel
  induction fuel with
  | zero => rfl
  | succ fuel ih => exact ih

/-- C4: on a ring of capacity 32 — far below MAX_CAPACITY = 2^20 —
filled by 32 pushes, `expansion` leaves the capacity at 32 instead of
doubling it (the freshly built buffer and the doubled capacity are never
installed), the retried push still reports a full buffer, and the `Push`
retry loop therefore never terminates for any amount of fuel: it
neither succeeds nor returns `QueueFull`. -/
theorem dlq_expansion_never_grows :
    rbFull.capacity = 32 ∧ rbFull.count = 32 ∧ (32 : Int) < maxCapacity ∧
    (DLQOss.expansion rbFull).capacity = 32 ∧
    (DLQOss.expansion rbFull).push 99 = .error .bufFull ∧
    ∀ fuel, DLQOss.pushLoop fuel rbFull 99 = none := by
  refine ⟨rfl, rfl, by decide, rfl, rfl, fun fuel => ?_⟩
  cases fuel with
  | zero => rfl
  | succ fuel => exact dlq_pushLoop_stuck fuel

/-- On non-negative arguments Go's truncating `int(x)` is the floor. -/
theorem goInt_of_nonneg (x : ℚ) (h : 0 ≤ x) : goInt x = ⌊x⌋ := if_pos h

/-- Witness for `goInt_of_nonneg` at 7/2. -/
theorem goInt_of_nonneg_witness :
    (0 : ℚ) ≤ 7/2 ∧ goInt (7/2) = ⌊(7/2 : ℚ)⌋ :=
  ⟨by norm_num, goInt_of_nonneg (7/2) (by norm_num)⟩

/-- C8 counterexample: at 3 CPUs with weights 0.5/0.5 the claim's
derivation gives medium = effective − small = 3 − 2 = 1, while the
source rounds medium independently and returns (2, 2); and at 1 CPU
with weights 0.9/0.1 the claim's "minimum of 2" forces (2, 0) while the
source's `min(2, cores)` yields (1, 0). -/
theorem calculateCores_counterexample :
    CalculateCores 3 (1/2) (1/2) = (2, 2) ∧
    calculateCoresClaim 3 (1/2) (1/2) = (2, 1) ∧
    CalculateCores 1 (9/10) (1/10) = (1, 0) ∧
    calculateCoresClaim 1 (9/10) (1/10) = (2, 0) := by
  refine ⟨?_, ?_, ?_, ?_⟩ <;>
  · simp only [CalculateCores, calculateCoresClaim, goInt]
    norm_num

/-- C8 (amended): the source's derivation agrees with the claim's once
two points are corrected — when the rounded effective count falls below
2 it is raised only to `min(2, C)`, not to 2, and `medium_cores` is
rounded independently from `effective × w_m / (w_s + w_m)` instead of
being the remainder `effective − small_cores`. -/
theorem calculateCores_eq_amended (cores : Int) (smScale mmScale : ℚ)
    (hc : 1 ≤ cores) (hsm : 0 ≤ smScale) (hmm : 0 ≤ mmScale) :
    CalculateCores cores smScale mmScale = calculateCoresAmended cores smScale mmScale := by
  have hcast : (1 : ℚ) ≤ (cores : ℚ) := by exact_mod_cast hc
  have hcores0 : (0 : ℚ) ≤ (cores : ℚ) := le_trans zero_le_one hcast
  unfold CalculateCores calculateCoresAmended
  dsimp only
  by_cases h100 : smScale + mmScale < 1/100
  · simp only [if_pos h100]
    have h1 : (0 : ℚ) ≤ (cores : ℚ) * 1 + 1/2 := by
      have := mul_nonneg hcores0 (by norm_num : (0:ℚ) ≤ 1)
      linarith
    rw [goInt_of_nonneg _ h1]
    have he : (1 : Int) ≤ if ⌊(cores : ℚ) * 1 + 1/2⌋ < 2 then min 2 cores else ⌊(cores : ℚ) * 1 + 1/2⌋ := by
      split
      · exact le_min (by norm_num) hc
      · omega
    have hecast : (0 : ℚ) ≤
        ((if ⌊(cores : ℚ) * 1 + 1/2⌋ < 2 then min 2 cores else ⌊(cores : ℚ) * 1 + 1/2⌋ : Int) : ℚ) := by
      exact_mod_cast le_trans (by norm_num : (0:Int) ≤ 1) he
    have h2 : (0 : ℚ) ≤
        ((if ⌊(cores : ℚ) * 1 + 1/2⌋ < 2 then min 2 cores else ⌊(cores : ℚ) * 1 + 1/2⌋ : Int) : ℚ) *
          (1/2 / 1) + 1/2 := by
      have := mul_nonneg hecast (by norm_num : (0:ℚ) ≤ 1/2 / 1)
      linarith
    rw [goInt_of_nonneg _ h2]
  · simp only [if_neg h100]
    have hspos : (0 : ℚ) < smScale + mmScale := by
      rw [not_lt] at h100; linarith
    have h1 : (0 : ℚ) ≤ (cores : ℚ) * (smScale + mmScale) + 1/2 := by
      have := mul_nonneg hcores0 hspos.le
      linarith
    rw [goInt_of_nonneg _ h1]
    have he : (1 : Int) ≤ if ⌊(cores : ℚ) * (smScale + mmScale) + 1/2⌋ < 2 then min 2 cores
        else ⌊(cores : ℚ) * (smScale + mmScale) + 1/2⌋ := by
      split
      · exact le_min (by norm_num) hc
      · omega
    have hecast : (0 : ℚ) ≤
        ((if ⌊(cores : ℚ) * (smScale + mmScale) + 1/2⌋ < 2 then min 2 cores
          else ⌊(cores : ℚ) * (smScale + mmScale) + 1/2⌋ : Int) : ℚ) := by
      exact_mod_cast le_trans (by norm_num : (0:Int) ≤ 1) he
    have h2 : (0 : ℚ) ≤
        ((if ⌊(cores : ℚ) * (smScale + mmScale) + 1/2⌋ < 2 then min 2 cores
          else ⌊(cores : ℚ) * (smScale + mmScale) + 1/2⌋ : Int) : ℚ) *
          (smScale / (smScale + mmScale)) + 1/2 := by
      have := mul_nonneg hecast (div_nonneg hsm hspos.le)
      linarith
    have h3 : (0 : ℚ) ≤
        ((if ⌊(cores : ℚ) * (smScale + mmScale) + 1/2⌋ < 2 then min 2 cores
          else ⌊(cores : ℚ) * (smScale + mmScale) + 1/2⌋ : Int) : ℚ) *
          (mmScale / (smScale + mmScale)) + 1/2 := by
      have := mul_nonneg hecast (div_nonneg hmm hspos.le)
      linarith
    rw [goInt_of_nonneg _ h2, goInt_of_nonneg _ h3]

/-- Witness for `calculateCores_eq_amended` at 4 CPUs, weights
0.25/0.25. -/
theorem calculateCores_eq_amended_witness :
    (1 : Int) ≤ 4 ∧ (0 : ℚ) ≤ 1/4 ∧ (0 : ℚ) ≤ 1/4 ∧
    CalculateCores 4 (1/4) (1/4) = calculateCoresAmended 4 (1/4) (1/4) :=
  ⟨by norm_num, by norm_num, by norm_num,
   calculateCores_eq_amended 4 (1/4) (1/4) (by norm_num) (by norm_num) (by norm_num)⟩

/-- `Unregister` only ever removes a listener: its result is a sublist
of the input. -/
theorem unregisterL_sublist (ls : List Listener) (tag : String) :
    List.Sublist (unregisterL ls tag) ls := by
  induction ls with
  | nil => exact List.Sublist.refl _
  | cons l rest ih =>
    rw [unregisterL]
    split
    · exact List.sublist_cons_self l rest
    · exact List.cons_sublist_cons.mpr ih

/-- Registering a tag that is absent from the hub preserves
distinctness of the registered tags. -/
theorem registerL_tagsNodup (ls : List Listener) (tag : String) (sc : SizeCategory)
    (h : (ls.map Listener.tag).Nodup)
    (hfresh : (ls.any fun l => l.tag == tag) = false) :
    ((registerL ls tag sc).map Listener.tag).Nodup := by
  unfold registerL
  rw [List.map_append]
  refine List.Nodup.append h (List.nodup_singleton tag) ?_
  intro a ha hb
  rw [List.map_singleton, List.mem_singleton] at hb
  obtain ⟨l, hl, htag⟩ := List.mem_map.mp ha
  have hany : ls.any (fun l => l.tag == tag) = true :=
    List.any_eq_true.mpr ⟨l, hl, beq_iff_eq.mpr (htag.trans hb)⟩
  rw [hfresh] at hany
  exact Bool.noConfusion hany

/-- Under the freshness discipline, every reachable listener list has
pairwise-distinct tags. -/
theorem applyOps_tagsNodup (ops : List HubOp) :
    ∀ ls, (ls.map Listener.tag).Nodup → freshOps ops ls = true →
      ((applyOps ops ls).map Listener.tag).Nodup := by
  induction ops with
  | nil => exact fun ls h _ => h
  | cons op rest ih =>
    intro ls h hfresh
    cases op with
    | register tag sc =>
      rw [freshOps, Bool.and_eq_true] at hfresh
      have hx : (ls.any fun l => l.tag == tag) = false := by
        simpa using hfresh.1
      exact ih (registerL ls tag sc) (registerL_tagsNodup ls tag sc h hx) hfresh.2
    | unregister tag =>
      rw [freshOps] at hfresh
      refine ih (unregisterL ls tag) (List.Nodup.sublist ?_ h) hfresh
      exact List.Sublist.map Listener.tag (unregisterL_sublist ls tag)

/-- C9 counterexample: `Register` appends without any duplicate check,
so registering the tag "a" twice leaves the hub with two listeners
tagged "a" — the claimed invariant fails after this operation
sequence. -/
theorem hub_duplicate_tag_counterexample :
    tagCount (applyOps [.register "a" 0, .register "a" 0] []) "a" = 2 := by
  decide

/-- C9 (amended): each tag occurs at most once among the hub's
listeners after any sequence of register/unregister operations in which
every `register` is issued for a tag not currently registered —
`Register` itself enforces nothing, so the invariant holds only under
that caller discipline. -/
theorem hub_tags_unique (ops : List HubOp) (h : freshOps ops [] = true) (tag : String) :
    tagCount (applyOps ops []) tag ≤ 1 := by
  have hnodup := applyOps_tagsNodup ops [] (by simp) h
  unfold tagCount
  exact List.nodup_iff_count_le_one.mp hnodup tag

/-- Witness for `hub_tags_unique`: register "a", unregister it, register
it again — a fresh sequence, after which "a" occurs at most once. -/
theorem hub_tags_unique_witness :
    freshOps [HubOp.register "a" 0, HubOp.unregister "a", HubOp.register "a" 1] [] = true ∧
    tagCount (applyOps [HubOp.register "a" 0, HubOp.unregister "a", HubOp.register "a" 1] []) "a" ≤ 1 :=
  ⟨by decide, hub_tags_unique [HubOp.register "a" 0, HubOp.unregister "a", HubOp.register "a" 1] (by decide) "a"⟩

end BlitzMem
